import Mathlib

/-!
Shallow embedding of the SalmoDerby transaction-visualizer frontend
(src/static/script.js, src/unnamed/part_000..part_002) and of the backend
polling/dedup/batching logic described by src/OPTIMIZATION_REPORT.md.
Numeric JS values are modelled as rationals; JS arrays as Lean lists;
JS objects as association lists.
-/

namespace SalmoDerby

/-- A transaction as delivered in a stream batch.  Only the fields the
verified logic inspects (`hash`, `value`) are modelled. -/
structure Tx where
  hash : String
  value : ℚ
deriving DecidableEq, Repr

/-- `this.MAX_QUEUE_SIZE = 500` from the `MonadVisualizer` constructor
(src/static/script.js line 14; src/unnamed/part_002 line 15). -/
def MAX_QUEUE_SIZE : Nat := 500

/-- The smart-queue logic of `connectToStream`'s `onmessage` handler
(src/static/script.js lines 65-69; src/unnamed/part_002 lines 63-80):
if the arriving batch is non-empty, compute
`overflowCount = renderQueue.length + transactions.length - MAX_QUEUE_SIZE`;
if positive, `splice(0, overflowCount)` removes that many oldest items from
the front (removing at most the queue's whole contents), then the batch is
pushed onto the back.  An empty batch leaves the queue untouched. -/
def enqueueBatch (renderQueue : List Tx) (batch : List Tx) : List Tx :=
  if 0 < batch.length then
    let overflowCount : Int := (renderQueue.length : Int) + batch.length - MAX_QUEUE_SIZE
    (if 0 < overflowCount then renderQueue.drop overflowCount.toNat else renderQueue) ++ batch
  else renderQueue

/-- `getTransactionType` from src/static/script.js lines 148-154
(thresholds 1000 / 100 / 20 MON). -/
def getTransactionType (value : ℚ) : String :=
  if value > 1000 then "supernova"
  else if value > 100 then "large"
  else if value > 20 then "medium"
  else "small"

/-- `getTransactionType` from src/unnamed/part_000 lines 137-143
(same thresholds 1000 / 100 / 20 as src/static/script.js). -/
def getTransactionType_p0 (value : ℚ) : String :=
  if value > 1000 then "supernova"
  else if value > 100 then "large"
  else if value > 20 then "medium"
  else "small"

/-- `getTransactionType` from src/unnamed/part_002 lines 160-166
(thresholds 100 / 10 / 1 ETH). -/
def getTransactionType_p2 (value : ℚ) : String :=
  if value > 100 then "supernova"
  else if value > 10 then "large"
  else if value > 1 then "medium"
  else "small"

/-- `tpsWindowSeconds = 10` (src/static/script.js lines 694 and 1128). -/
def tpsWindowSeconds : Nat := 10

/-- The pruning loop of `updateTPSDisplay` (src/static/script.js lines 986-989
and line 1263): `while (transactionTimestamps.length > 0 &&
transactionTimestamps[0] < now - tpsWindowSeconds*1000) shift()`, i.e. drop
timestamps from the front while the front one is strictly older than the
10-second window.  Times are in milliseconds. -/
def pruneTimestamps (now : Int) (timestamps : List Int) : List Int :=
  timestamps.dropWhile (fun t => t < now - (tpsWindowSeconds : Int) * 1000)

/-- The TPS value computed by `updateTPSDisplay` (src/static/script.js line
990 and line 1263): remaining timestamp count divided by the window length. -/
def tpsValue (now : Int) (timestamps : List Int) : ℚ :=
  ((pruneTimestamps now timestamps).length : ℚ) / (tpsWindowSeconds : ℚ)

/-- A JSON value as it appears in the `applyConfiguration` request body:
either a string or an array of address strings. -/
inductive Jval where
  | str : String → Jval
  | arr : List String → Jval
deriving DecidableEq, Repr

/-- One element of the `entitiesPayload` array built by `applyConfiguration`
(src/static/script.js lines 547-550): the object literal
`{ name: name, addresses: this.derbyConfig.racers[name] }`, modelled as an
association list of key/value pairs.  Its keys are exactly `name` and
`addresses`. -/
def payloadEntry (name : String) (addresses : List String) : List (String × Jval) :=
  [("name", Jval.str name), ("addresses", Jval.arr addresses)]

/-- The full `entitiesPayload` of `applyConfiguration`: one entry per racer
of `derbyConfig.racers`, sent as a single request body (a full replacement
list). -/
def entitiesPayload (racers : List (String × List String)) : List (List (String × Jval)) :=
  racers.map (fun r => payloadEntry r.1 r.2)

/-- The default `derbyConfig.racers` object from the `MonadVisualizer`
constructor (src/static/script.js lines 23-31). -/
def defaultRacers : List (String × List String) :=
  [("LFJ", ["0x45A62B090DF48243F12A21897e7ed91863E2c86b"]),
   ("PancakeSwap", ["0x94D220C58A23AE0c2eE29344b00A30D1c2d9F1bc"]),
   ("Bean Exchange", ["0xCa810D095e90Daae6e867c19DF6D9A8C56db2c89"]),
   ("Ambient Finance", ["0x88B96aF200c8a9c35442C8AC6cd3D22695AaE4F0"]),
   ("Izumi Finance", ["0xf6ffe4f3fdc8bbb7f70ffd48e61f17d1e343ddfd"]),
   ("Octoswap", ["0xb6091233aAcACbA45225a2B2121BBaC807aF4255"]),
   ("Uniswap", ["0x3aE6D8A282D67893e17AA70ebFFb33EE5aa65893"])]

/-- A JS string, modelled as its character list (so that the verified string
operations compute inside Lean). -/
abbrev JStr := List Char

/-- `String.prototype.trim`: remove whitespace from both ends. -/
def trimJS (s : JStr) : JStr :=
  ((s.dropWhile Char.isWhitespace).reverse.dropWhile Char.isWhitespace).reverse

/-- `String.prototype.split(',')`: split on every comma; always returns at
least one (possibly empty) piece. -/
def splitOnComma : JStr → List JStr
  | [] => [[]]
  | c :: rest =>
      match splitOnComma rest with
      | [] => [[c]]
      | g :: gs => if c = ',' then [] :: g :: gs else (c :: g) :: gs

/-- The address parsing of `addEntity` (src/static/script.js lines 506-508):
split the input on commas, trim each piece, keep the non-empty ones. -/
def parseAddresses (addressInput : JStr) : List JStr :=
  ((splitOnComma addressInput).map trimJS).filter (fun a => 0 < a.length)

/-- JS object property assignment `racers[name] = addresses`
(src/static/script.js line 521): an existing key keeps its position and gets
the new value; a new key is appended at the end. -/
def setRacer (racers : List (JStr × List JStr)) (name : JStr)
    (addrs : List JStr) : List (JStr × List JStr) :=
  if racers.any (fun r => r.1 = name) then
    racers.map (fun r => if r.1 = name then (name, addrs) else r)
  else racers ++ [(name, addrs)]

/-- `addEntity` (src/static/script.js lines 475-529) acting on the racer
configuration: trim the name and the addresses input; reject (returning the
configuration unchanged) when the trimmed name is empty, the trimmed address
input is empty, or no non-empty address survives parsing; otherwise map the
name to the parsed address list. -/
def addEntity (racers : List (JStr × List JStr))
    (nameValue addressesValue : JStr) : List (JStr × List JStr) :=
  let name := trimJS nameValue
  let addressInput := trimJS addressesValue
  if name = [] then racers
  else if addressInput = [] then racers
  else
    let addresses := parseAddresses addressInput
    if addresses = [] then racers
    else setRacer racers name addresses

/-- `TIP_POLL_INTERVAL_FAST = 0.1` (src/OPTIMIZATION_REPORT.md line 29). -/
def TIP_POLL_INTERVAL_FAST : ℚ := 1/10

/-- `TIP_POLL_INTERVAL_SLOW = 0.5` (src/OPTIMIZATION_REPORT.md line 31). -/
def TIP_POLL_INTERVAL_SLOW : ℚ := 1/2

/-- `TIP_POLL_INTERVAL_BASE = 0.2` (src/OPTIMIZATION_REPORT.md line 33). -/
def TIP_POLL_INTERVAL_BASE : ℚ := 1/5

/-- `AdaptivePollingState.get_optimal_poll_interval`
(src/OPTIMIZATION_REPORT.md lines 27-34): fast while the activity
classification is ACTIVE, slow once more than 5 consecutive empty queries
have occurred, otherwise the medium base interval. -/
def get_optimal_poll_interval (is_active_period : Bool)
    (consecutive_empty_queries : Nat) : ℚ :=
  if is_active_period then TIP_POLL_INTERVAL_FAST
  else if consecutive_empty_queries > 5 then TIP_POLL_INTERVAL_SLOW
  else TIP_POLL_INTERVAL_BASE

/-- The part of `AdaptivePollingState` the height-refresh decision reads:
the Range Fetcher's cursor, the last known chain height, and the count of
consecutive empty queries. -/
structure PollingState where
  cursor : Nat
  known_height : Nat
  consecutive_empty_queries : Nat
deriving DecidableEq, Repr

/-- An empty fetch result increments the consecutive-empty-query counter
(spec section 4.2: "An empty result increments the Polling Controller's
empty-counter"). -/
def record_empty_query (s : PollingState) : PollingState :=
  { s with consecutive_empty_queries := s.consecutive_empty_queries + 1 }

/-- Modelled from the spec: `AdaptivePollingState.should_refresh_height`
lives in the backend `main_web.py`, which is absent from the source tree;
src/OPTIMIZATION_REPORT.md lines 36-46 and spec section 4.1 describe it:
true when the time elapsed since the last height refresh exceeds 1 second
while ACTIVE, exceeds 3 seconds while QUIET, or when at least 2 consecutive
empty queries occurred — whichever fires first. -/
def should_refresh_height (is_active : Bool) (elapsed : ℚ)
    (consecutive_empty_queries : Nat) : Bool :=
  (is_active && decide (elapsed > 1)) ||
  (!is_active && decide (elapsed > 3)) ||
  decide (consecutive_empty_queries ≥ 2)

/-- Modelled from the spec: the Duplicate Filter's test-and-insert loop lives
in the backend `main_web.py`, absent from the source tree (only its eviction
snippet appears at src/OPTIMIZATION_REPORT.md lines 68-73); spec section 4.3:
for each fetched transaction, check membership of its hash in the recent-hash
set; if absent, insert and forward; if present, silently drop.  `seen` is the
recent-hash set, the result is the forwarded sequence. -/
def dedupRun (seen : List String) : List String → List String
  | [] => []
  | h :: rest =>
      if h ∈ seen then dedupRun seen rest
      else h :: dedupRun (h :: seen) rest

/-- First arrival time of a pending batch of time-tagged items (0 when the
batch is empty; only read on non-empty batches).  Times are integer
milliseconds. -/
def firstArrival (pending : List (Int × String)) : Int :=
  match pending with
  | [] => 0
  | (t0, _) :: _ => t0

/-- Modelled from the spec: `sse_transaction_generator` lives in the backend
`main_web.py`, absent from the source tree (src/OPTIMIZATION_REPORT.md lines
75-80 only describes its parameters); spec section 4.5: accumulate arriving
items into a pending batch and flush when either the batch reaches the
maximum size or the maximum wait time has elapsed since the pending batch's
first item arrived, whichever comes first.  Items arrive as (time, item)
pairs with integer-millisecond times; the result is the list of
(flush time, batch) emissions: when the pending batch's wait timer has
expired by the time the next item arrives, the pending batch flushes at its
deadline before the new item starts a fresh batch, and a non-empty pending
batch left at the end of the input flushes when its wait timer expires. -/
def pubRunAux (maxSize : Nat) (maxWait : Int) (pending : List (Int × String)) :
    List (Int × String) → List (Int × List (Int × String))
  | [] =>
      if pending.isEmpty then []
      else [(firstArrival pending + maxWait, pending)]
  | (t, x) :: rest =>
      if pending ≠ [] ∧ firstArrival pending + maxWait ≤ t then
        if maxSize ≤ 1 then
          (firstArrival pending + maxWait, pending) :: (t, [(t, x)]) ::
            pubRunAux maxSize maxWait [] rest
        else
          (firstArrival pending + maxWait, pending) ::
            pubRunAux maxSize maxWait [(t, x)] rest
      else
        if maxSize ≤ (pending ++ [(t, x)]).length then
          (t, pending ++ [(t, x)]) :: pubRunAux maxSize maxWait [] rest
        else
          pubRunAux maxSize maxWait (pending ++ [(t, x)]) rest

/-- The Batched Publisher run on a whole input stream, starting from an
empty pending batch. -/
def pubRun (maxSize : Nat) (maxWait : Int) (events : List (Int × String)) :
    List (Int × List (Int × String)) :=
  pubRunAux maxSize maxWait [] events

/-- An entity-match criterion (spec section 4.6): `addrTo`, `addrFrom`,
`both` and `deployedBy` stand for the spec's `to`, `from`, `both` and
`deployed-by`. -/
inductive Criterion where
  | addrTo | addrFrom | both | deployedBy
deriving DecidableEq, Repr

/-- A transaction as the Entity Classifier sees it: a from-address and an
optional to-address (`none` models a contract-creation transaction whose
to-address is empty/absent). -/
structure MTx where
  fromAddr : String
  toAddr : Option String
deriving DecidableEq, Repr

/-- Modelled from the spec: the Entity Classifier lives in the backend
`main_web.py`, absent from the source tree; spec section 4.6 matching rule:
`to` matches when the transaction's to-address is in the entity's addresses;
`from` when the from-address is; `both` when either is; `deployed-by` when
the to-address is empty/absent and the from-address is in the addresses. -/
def entityMatches (addresses : List String) (criterion : Criterion)
    (tx : MTx) : Bool :=
  match criterion with
  | .addrTo =>
      match tx.toAddr with
      | some a => decide (a ∈ addresses)
      | none => false
  | .addrFrom => decide (tx.fromAddr ∈ addresses)
  | .both =>
      (match tx.toAddr with
       | some a => decide (a ∈ addresses)
       | none => false) || decide (tx.fromAddr ∈ addresses)
  | .deployedBy => tx.toAddr.isNone && decide (tx.fromAddr ∈ addresses)

/-- C5: for every activity classification and every consecutive-empty-query
count, `get_optimal_poll_interval` lies within `[fastest, slowest]`; holding
the activity classification fixed, a larger empty count never yields a
smaller interval; it is the fastest interval while ACTIVE, the slowest once
the empty count exceeds 5, and the medium base interval otherwise. -/
theorem poll_interval_bounded_monotone :
    ∀ (is_active : Bool) (n : Nat),
      (TIP_POLL_INTERVAL_FAST ≤ get_optimal_poll_interval is_active n ∧
        get_optimal_poll_interval is_active n ≤ TIP_POLL_INTERVAL_SLOW) ∧
      (∀ m : Nat, n ≤ m →
        get_optimal_poll_interval is_active n ≤ get_optimal_poll_interval is_active m) ∧
      (is_active = true →
        get_optimal_poll_interval is_active n = TIP_POLL_INTERVAL_FAST) ∧
      (is_active = false → 5 < n →
        get_optimal_poll_interval is_active n = TIP_POLL_INTERVAL_SLOW) ∧
      (is_active = false → n ≤ 5 →
        get_optimal_poll_interval is_active n = TIP_POLL_INTERVAL_BASE) := by
  intro is_active n
  refine ⟨⟨?_, ?_⟩, ?_, ?_, ?_, ?_⟩
  · cases is_active <;> by_cases h5 : 5 < n <;>
      simp [get_optimal_poll_interval, h5, TIP_POLL_INTERVAL_FAST,
        TIP_POLL_INTERVAL_SLOW, TIP_POLL_INTERVAL_BASE] <;> norm_num
  · cases is_active <;> by_cases h5 : 5 < n <;>
      simp [get_optimal_poll_interval, h5, TIP_POLL_INTERVAL_FAST,
        TIP_POLL_INTERVAL_SLOW, TIP_POLL_INTERVAL_BASE] <;> norm_num
  · intro m hm
    cases is_active with
    | true => simp [get_optimal_poll_interval]
    | false =>
        by_cases h5 : 5 < n
        · have h5m : 5 < m := lt_of_lt_of_le h5 hm
          simp [get_optimal_poll_interval, h5, h5m]
        · by_cases h5m : 5 < m
          · simp [get_optimal_poll_interval, h5, h5m,
              TIP_POLL_INTERVAL_BASE, TIP_POLL_INTERVAL_SLOW]
            norm_num
          · simp [get_optimal_poll_interval, h5, h5m]
  · intro ha; subst ha; rfl
  · intro ha h5; subst ha; simp [get_optimal_poll_interval, h5]
  · intro ha h5; subst ha
    simp [get_optimal_poll_interval, Nat.not_lt.mpr h5]

/-- Witness for C5 at concrete inputs: the interval at 0 empty queries in the
QUIET state is within the bounds, does not decrease when the count grows to
6, and at 6 it is the slowest interval. -/
theorem poll_interval_witness :
    TIP_POLL_INTERVAL_FAST ≤ get_optimal_poll_interval false 0 ∧
    get_optimal_poll_interval false 0 ≤ get_optimal_poll_interval false 6 ∧
    get_optimal_poll_interval false 6 = TIP_POLL_INTERVAL_SLOW :=
  ⟨(poll_interval_bounded_monotone false 0).1.1,
    (poll_interval_bounded_monotone false 0).2.1 6 (by norm_num),
    (poll_interval_bounded_monotone false 6).2.2.2.1 rfl (by norm_num)⟩

/-- C6: whenever the consecutive-empty-query count is at least 2,
`should_refresh_height` is true regardless of the elapsed time; in
particular, starting from cursor 100 and known height 100, three recorded
empty queries bring the count to 3 and make `should_refresh_height` true at
elapsed time 0, for both activity classifications. -/
theorem empty_queries_force_height_refresh :
    (∀ (is_active : Bool) (elapsed : ℚ) (n : Nat), 2 ≤ n →
      should_refresh_height is_active elapsed n = true) ∧
    ((record_empty_query (record_empty_query (record_empty_query
        ⟨100, 100, 0⟩))).consecutive_empty_queries = 3 ∧
      ∀ is_active : Bool,
        should_refresh_height is_active 0
          (record_empty_query (record_empty_query (record_empty_query
            ⟨100, 100, 0⟩))).consecutive_empty_queries = true) := by
  refine ⟨?_, rfl, ?_⟩
  · intro is_active elapsed n hn
    simp [should_refresh_height, hn]
  · intro is_active
    simp [should_refresh_height, record_empty_query]

/-- Witness for C6: the general part applied at the ACTIVE state, elapsed
time 0 and empty count 2. -/
theorem empty_queries_refresh_witness :
    should_refresh_height true 0 2 = true :=
  empty_queries_force_height_refresh.1 true 0 2 (by norm_num)

/-- C7: running the Duplicate Filter's test-and-insert loop over any input
sequence, a hash is forwarded exactly once when it occurs in the input and
is not already in the recent-hash set, and never otherwise: in the forwarded
output its number of occurrences is 0 when it is already in the set, and
otherwise 1 if it occurs in the input and 0 if it does not. -/
theorem duplicate_filter_forwards_once :
    ∀ (txs : List String) (seen : List String) (a : String),
      (dedupRun seen txs).count a =
        if a ∈ seen then 0 else if a ∈ txs then 1 else 0 := by
  intro txs
  induction txs with
  | nil => intro seen a; simp [dedupRun]
  | cons x rest ih =>
      intro seen a
      by_cases hx : x ∈ seen
      · rw [dedupRun, if_pos hx, ih]
        by_cases hs : a ∈ seen
        · simp [hs]
        · have hax : a ≠ x := fun e => hs (e ▸ hx)
          simp [hs, List.mem_cons, hax]
      · rw [dedupRun, if_neg hx]
        by_cases hax : a = x
        · subst hax
          rw [List.count_cons_self, ih]
          simp [hx, List.mem_cons]
        · rw [List.count_cons_of_ne hax, ih]
          by_cases hs : a ∈ seen
          · simp [hs, List.mem_cons, hax]
          · simp [hs, List.mem_cons, hax]

/-- C9: the entity-matching rule — criterion `to` matches exactly when the
to-address is in the entity's address set, `from` exactly when the
from-address is, `both` exactly when either is, `deployed-by` exactly when
the to-address is absent and the from-address is in the set; together with
the spec's concrete examples for `0xAAA` and `0xCCC`. -/
theorem entity_matching_rule :
    (∀ (addrs : List String) (tx : MTx),
      (entityMatches addrs .addrTo tx = true ↔
        (∃ a, tx.toAddr = some a ∧ a ∈ addrs)) ∧
      (entityMatches addrs .addrFrom tx = true ↔ tx.fromAddr ∈ addrs) ∧
      (entityMatches addrs .both tx = true ↔
        ((∃ a, tx.toAddr = some a ∧ a ∈ addrs) ∨ tx.fromAddr ∈ addrs)) ∧
      (entityMatches addrs .deployedBy tx = true ↔
        (tx.toAddr = none ∧ tx.fromAddr ∈ addrs))) ∧
    entityMatches ["0xAAA"] .addrTo ⟨"0xBBB", some "0xAAA"⟩ = true ∧
    entityMatches ["0xAAA"] .addrTo ⟨"0xAAA", some "0xBBB"⟩ = false ∧
    entityMatches ["0xAAA"] .both ⟨"0xAAA", some "0xBBB"⟩ = true ∧
    entityMatches ["0xAAA"] .both ⟨"0xBBB", some "0xAAA"⟩ = true ∧
    entityMatches ["0xCCC"] .deployedBy ⟨"0xCCC", none⟩ = true ∧
    entityMatches ["0xCCC"] .deployedBy ⟨"0xCCC", some "0xDDD"⟩ = false := by
  refine ⟨?_, by decide, by decide, by decide, by decide, by decide, by decide⟩
  intro addrs tx
  obtain ⟨f, t⟩ := tx
  cases t <;> simp [entityMatches, Option.isNone]

/-- C10 counterexample: the two visualizer variants' classifiers are not
extensionally equal — at value 500 the src/static/script.js classifier says
`large` while the src/unnamed/part_002 classifier says `supernova`. -/
theorem classifier_variants_differ :
    getTransactionType 500 = "large" ∧
    getTransactionType_p2 500 = "supernova" ∧
    getTransactionType 500 ≠ getTransactionType_p2 500 := by
  refine ⟨?_, ?_, ?_⟩
  · norm_num [getTransactionType]
  · norm_num [getTransactionType_p2]
  · norm_num [getTransactionType, getTransactionType_p2]
    decide

/-- C10 amended: the src/static/script.js classifier is extensionally equal
to the src/unnamed/part_000 classifier, while it agrees with the
src/unnamed/part_002 classifier exactly on values at most 1 or above 1000. -/
theorem classifier_equivalence :
    (∀ v : ℚ, getTransactionType v = getTransactionType_p0 v) ∧
    (∀ v : ℚ, getTransactionType v = getTransactionType_p2 v ↔ (v ≤ 1 ∨ 1000 < v)) := by
  constructor
  · intro v; rfl
  · intro v
    unfold getTransactionType getTransactionType_p2
    constructor
    · intro hEq
      by_contra hcon
      push_neg at hcon
      obtain ⟨h1, h2⟩ := hcon
      split_ifs at hEq <;> simp_all <;> linarith
    · intro hd
      rcases hd with hd | hd
      · rw [if_neg (by linarith), if_neg (by linarith), if_neg (by linarith),
          if_neg (by linarith), if_neg (by linarith), if_neg (by linarith)]
      · rw [if_pos (by linarith), if_pos (by linarith)]

/-- C3 counterexample: the configuration payload built by
`applyConfiguration` for the default racer configuration is non-empty, its
first entry is the object for `LFJ`, and that entry's keys are `name` and
`addresses` only — it has no `criterion` field, so not every entry contains
the fields name, addresses and criterion. -/
theorem config_payload_missing_criterion :
    entitiesPayload defaultRacers ≠ [] ∧
    (entitiesPayload defaultRacers).head? =
      some (payloadEntry "LFJ" ["0x45A62B090DF48243F12A21897e7ed91863E2c86b"]) ∧
    "criterion" ∉
      (payloadEntry "LFJ" ["0x45A62B090DF48243F12A21897e7ed91863E2c86b"]).map Prod.fst ∧
    ¬ (∀ e ∈ entitiesPayload defaultRacers, "criterion" ∈ e.map Prod.fst) := by
  refine ⟨by simp [entitiesPayload, defaultRacers], rfl, by decide, ?_⟩
  intro hall
  have h1 := hall (payloadEntry "LFJ" ["0x45A62B090DF48243F12A21897e7ed91863E2c86b"])
    (by simp [entitiesPayload, defaultRacers])
  revert h1
  decide

/-- C3 amended: `applyConfiguration` sends a full replacement list — one
entry per configured racer, assembled and posted as a single request body —
in which every entry contains exactly the fields `name` and `addresses` (and
in particular no `criterion` field). -/
theorem config_payload_full_replacement :
    ∀ racers : List (String × List String),
      (entitiesPayload racers).length = racers.length ∧
      (∀ e ∈ entitiesPayload racers, e.map Prod.fst = ["name", "addresses"]) := by
  intro racers
  constructor
  · simp [entitiesPayload]
  · intro e he
    simp only [entitiesPayload, List.mem_map] at he
    obtain ⟨r, _, rfl⟩ := he
    rfl

/-- Witness for C3's amended claim at the default racer configuration and
its first payload entry. -/
theorem config_payload_witness :
    (entitiesPayload defaultRacers).length = defaultRacers.length ∧
    (payloadEntry "LFJ" ["0x45A62B090DF48243F12A21897e7ed91863E2c86b"]).map Prod.fst =
      ["name", "addresses"] :=
  ⟨(config_payload_full_replacement defaultRacers).1,
    (config_payload_full_replacement defaultRacers).2
      (payloadEntry "LFJ" ["0x45A62B090DF48243F12A21897e7ed91863E2c86b"])
      (by simp [entitiesPayload, defaultRacers])⟩

/-- C1 counterexample: a single arriving batch of 501 transactions pushed
into an empty render queue leaves the queue at 501 items, exceeding the
configured capacity `MAX_QUEUE_SIZE = 500` — so the queue does not hold at
most its capacity after every batch. -/
theorem smart_queue_overflow_counterexample :
    (enqueueBatch [] (List.replicate 501 ⟨"h", 0⟩)).length = 501 ∧
    ¬ (enqueueBatch [] (List.replicate 501 ⟨"h", 0⟩)).length ≤ MAX_QUEUE_SIZE := by
  have h : (enqueueBatch [] (List.replicate 501 ⟨"h", 0⟩)).length = 501 := by
    norm_num [enqueueBatch, MAX_QUEUE_SIZE]
  exact ⟨h, by rw [h]; norm_num [MAX_QUEUE_SIZE]⟩

/-- C1 amended: provided every arriving batch holds at most
`MAX_QUEUE_SIZE` items, the render queue holds at most `MAX_QUEUE_SIZE`
items after each batch is processed (also along any sequence of batches);
when adding a batch would exceed the capacity, exactly the overflow count of
oldest items is dropped from the front before the new items are appended,
and when it would not, nothing is dropped. -/
theorem smart_queue_load_shedding :
    (∀ queue batch : List Tx,
      queue.length ≤ MAX_QUEUE_SIZE → batch.length ≤ MAX_QUEUE_SIZE →
      (enqueueBatch queue batch).length ≤ MAX_QUEUE_SIZE) ∧
    (∀ (init : List Tx) (batches : List (List Tx)),
      init.length ≤ MAX_QUEUE_SIZE → (∀ b ∈ batches, b.length ≤ MAX_QUEUE_SIZE) →
      (batches.foldl enqueueBatch init).length ≤ MAX_QUEUE_SIZE) ∧
    (∀ queue batch : List Tx,
      queue.length ≤ MAX_QUEUE_SIZE → batch.length ≤ MAX_QUEUE_SIZE →
      MAX_QUEUE_SIZE < queue.length + batch.length →
      enqueueBatch queue batch =
        queue.drop (queue.length + batch.length - MAX_QUEUE_SIZE) ++ batch ∧
      (queue.drop (queue.length + batch.length - MAX_QUEUE_SIZE)).length =
        queue.length - (queue.length + batch.length - MAX_QUEUE_SIZE)) ∧
    (∀ queue batch : List Tx,
      queue.length + batch.length ≤ MAX_QUEUE_SIZE →
      enqueueBatch queue batch = queue ++ batch) := by
  have hstep : ∀ queue batch : List Tx,
      queue.length ≤ MAX_QUEUE_SIZE → batch.length ≤ MAX_QUEUE_SIZE →
      (enqueueBatch queue batch).length ≤ MAX_QUEUE_SIZE := by
    intro queue batch hq hb
    simp only [enqueueBatch]
    split_ifs with hpos hover
    · rw [List.length_append, List.length_drop]
      unfold MAX_QUEUE_SIZE at *
      omega
    · rw [List.length_append]
      unfold MAX_QUEUE_SIZE at *
      omega
    · exact hq
  refine ⟨hstep, ?_, ?_, ?_⟩
  · intro init batches
    induction batches generalizing init with
    | nil => intro h _; exact h
    | cons b bs ih =>
        intro hinit hall
        rw [List.foldl_cons]
        exact ih (enqueueBatch init b)
          (hstep init b hinit (hall b (List.mem_cons_self b bs)))
          (fun b' hb' => hall b' (List.mem_cons_of_mem b hb'))
  · intro queue batch hq hb hover
    refine ⟨?_, List.length_drop _ _⟩
    simp only [enqueueBatch]
    rw [if_pos (show 0 < batch.length by unfold MAX_QUEUE_SIZE at *; omega),
      if_pos (show (0:Int) < (queue.length:Int) + batch.length - MAX_QUEUE_SIZE by
        unfold MAX_QUEUE_SIZE at *; omega)]
    have harg : (((queue.length : Int) + (batch.length : Int)
        - ((MAX_QUEUE_SIZE : Nat) : Int)).toNat : Nat)
        = queue.length + batch.length - MAX_QUEUE_SIZE := by
      unfold MAX_QUEUE_SIZE at *
      omega
    rw [harg]
  · intro queue batch hfit
    simp only [enqueueBatch]
    split_ifs with hpos hover
    · exfalso
      unfold MAX_QUEUE_SIZE at *
      omega
    · rfl
    · have hnil : batch = [] := List.length_eq_zero.mp (by omega)
      rw [hnil, List.append_nil]

/-- Witness for C1's amended claim at concrete inputs: a queue of 400
transactions receiving a batch of 200 ends at the capacity, and the step is
exactly a front-drop of the 100-item overflow followed by the append. -/
theorem smart_queue_witness :
    (enqueueBatch (List.replicate 400 ⟨"q", 0⟩) (List.replicate 200 ⟨"b", 1⟩)).length
        ≤ MAX_QUEUE_SIZE ∧
    enqueueBatch (List.replicate 400 ⟨"q", 0⟩) (List.replicate 200 ⟨"b", 1⟩) =
      (List.replicate 400 (⟨"q", 0⟩ : Tx)).drop 100 ++ List.replicate 200 ⟨"b", 1⟩ := by
  have h1 := smart_queue_load_shedding.1 (List.replicate 400 ⟨"q", 0⟩)
    (List.replicate 200 ⟨"b", 1⟩)
    (by rw [List.length_replicate]; norm_num [MAX_QUEUE_SIZE])
    (by rw [List.length_replicate]; norm_num [MAX_QUEUE_SIZE])
  have h2 := (smart_queue_load_shedding.2.2.1 (List.replicate 400 ⟨"q", 0⟩)
    (List.replicate 200 ⟨"b", 1⟩)
    (by rw [List.length_replicate]; norm_num [MAX_QUEUE_SIZE])
    (by rw [List.length_replicate]; norm_num [MAX_QUEUE_SIZE])
    (by rw [List.length_replicate, List.length_replicate]; norm_num [MAX_QUEUE_SIZE])).1
  refine ⟨h1, ?_⟩
  rw [h2, List.length_replicate, List.length_replicate]
  norm_num [MAX_QUEUE_SIZE]

/-- On a list sorted in nondecreasing order, dropping the longest prefix of
elements below a cutoff removes exactly the elements below the cutoff. -/
theorem sorted_dropWhile_lt_eq_filter (c : Int) :
    ∀ l : List Int, l.Sorted (· ≤ ·) →
      l.dropWhile (fun t => t < c) = l.filter (fun t => c ≤ t) := by
  intro l
  induction l with
  | nil => intro _; rfl
  | cons a l ih =>
      intro hs
      rw [List.sorted_cons] at hs
      obtain ⟨ha, hl⟩ := hs
      by_cases hac : a < c
      · rw [List.dropWhile_cons, List.filter_cons, if_pos (by simpa using hac),
          if_neg (by simp only [decide_eq_true_eq]; omega)]
        exact ih hl
      · rw [List.dropWhile_cons, if_neg (by simpa using hac),
          List.filter_cons, if_pos (by simpa using not_lt.mp hac)]
        congr 1
        symm
        exact List.filter_eq_self.mpr
          (fun t ht => by simpa using le_trans (not_lt.mp hac) (ha t ht))

/-- C2: on any nondecreasing list of recorded arrival timestamps,
`updateTPSDisplay` first discards exactly the timestamps strictly older than
`now` minus the 10-second window, reports TPS equal to the remaining count
divided by the window length, and, once a read time is late enough that
every recorded timestamp is older than the window, the reported TPS is 0. -/
theorem tps_computation_correct :
    ∀ (now : Int) (timestamps : List Int), timestamps.Sorted (· ≤ ·) →
      (pruneTimestamps now timestamps =
        timestamps.filter (fun t => now - (tpsWindowSeconds : Int) * 1000 ≤ t)) ∧
      (tpsValue now timestamps =
        ((timestamps.filter
            (fun t => now - (tpsWindowSeconds : Int) * 1000 ≤ t)).length : ℚ)
          / (tpsWindowSeconds : ℚ)) ∧
      (∀ later : Int,
        (∀ t ∈ timestamps, t < later - (tpsWindowSeconds : Int) * 1000) →
        tpsValue later timestamps = 0) := by
  intro now timestamps hs
  have hfilter := sorted_dropWhile_lt_eq_filter
    (now - (tpsWindowSeconds : Int) * 1000) timestamps hs
  refine ⟨hfilter, ?_, ?_⟩
  · rw [tpsValue, pruneTimestamps, hfilter]
  · intro later hall
    have hnil : pruneTimestamps later timestamps = [] := by
      rw [pruneTimestamps]
      exact List.dropWhile_eq_nil_iff.mpr (fun t ht => by simpa using hall t ht)
    rw [tpsValue, hnil]
    norm_num

/-- Witness for C2 at a concrete sorted timestamp list and read times:
at `now = 12000` the sample at 0 is discarded and two samples remain; at a
late enough read time the TPS is 0. -/
theorem tps_computation_witness :
    pruneTimestamps 12000 [0, 5000, 11000] =
      [0, 5000, 11000].filter
        (fun t => 12000 - (tpsWindowSeconds : Int) * 1000 ≤ t) ∧
    tpsValue 30000 [0, 5000, 11000] = 0 :=
  ⟨(tps_computation_correct 12000 [0, 5000, 11000] (by decide)).1,
    (tps_computation_correct 30000 [0, 5000, 11000] (by decide)).2.2 30000
      (by decide)⟩

/-- Looking a key up after the in-place update pass of `setRacer`, when the
key occurs among the racers, yields the new address list. -/
theorem lookup_map_update (name : JStr) (addrs : List JStr) :
    ∀ l : List (JStr × List JStr), (∃ r ∈ l, r.1 = name) →
      List.lookup name (l.map (fun r => if r.1 = name then (name, addrs) else r)) =
        some addrs := by
  intro l
  induction l with
  | nil => rintro ⟨r, hr, _⟩; exact absurd hr (List.not_mem_nil r)
  | cons kv l ih =>
      rintro ⟨r, hr, hrn⟩
      by_cases hk : kv.1 = name
      · rw [List.map_cons, if_pos hk, List.lookup_cons]
        simp
      · rw [List.map_cons, if_neg hk, List.lookup_cons]
        have hne : (name == kv.1) = false := by
          simp only [beq_eq_false_iff_ne, ne_eq]
          exact fun e => hk e.symm
        rw [hne]
        refine ih ⟨r, ?_, hrn⟩
        rcases List.mem_cons.mp hr with h | h
        · exact absurd (h ▸ hrn) hk
        · exact h

/-- Looking a key up in a racer list that does not contain it, after the key
was appended at the end with its address list, yields that address list. -/
theorem lookup_append_new (name : JStr) (addrs : List JStr) :
    ∀ l : List (JStr × List JStr), (∀ r ∈ l, r.1 ≠ name) →
      List.lookup name (l ++ [(name, addrs)]) = some addrs := by
  intro l
  induction l with
  | nil => intro _; simp [List.lookup_cons]
  | cons kv l ih =>
      intro hall
      rw [List.cons_append, List.lookup_cons]
      have hne : (name == kv.1) = false := by
        simp only [beq_eq_false_iff_ne, ne_eq]
        exact fun e => hall kv (List.mem_cons_self kv l) e.symm
      rw [hne]
      exact ih (fun r hr => hall r (List.mem_cons_of_mem kv hr))

/-- C4: `addEntity` rejects, leaving the racer configuration unchanged, any
input whose trimmed name is empty or whose addresses input parses to no
non-empty address; and on any input with a non-empty trimmed name and at
least one parsed address, the updated configuration maps that name to
exactly the parsed address list. -/
theorem add_entity_validation :
    ∀ (racers : List (JStr × List JStr)) (nameValue addressesValue : JStr),
      (trimJS nameValue = [] → addEntity racers nameValue addressesValue = racers) ∧
      (parseAddresses (trimJS addressesValue) = [] →
        addEntity racers nameValue addressesValue = racers) ∧
      (trimJS nameValue ≠ [] → parseAddresses (trimJS addressesValue) ≠ [] →
        List.lookup (trimJS nameValue) (addEntity racers nameValue addressesValue) =
          some (parseAddresses (trimJS addressesValue))) := by
  intro racers nameValue addressesValue
  refine ⟨?_, ?_, ?_⟩
  · intro hn
    simp only [addEntity, if_pos hn]
  · intro hp
    simp only [addEntity]
    by_cases h1 : trimJS nameValue = []
    · rw [if_pos h1]
    · rw [if_neg h1]
      by_cases h2 : trimJS addressesValue = []
      · rw [if_pos h2]
      · rw [if_neg h2, if_pos hp]
  · intro hn hp
    simp only [addEntity]
    have haddr : trimJS addressesValue ≠ [] := by
      intro he
      apply hp
      rw [he]
      rfl
    rw [if_neg hn, if_neg haddr, if_neg hp]
    by_cases hany : racers.any (fun r => r.1 = trimJS nameValue)
    · rw [setRacer, if_pos hany]
      refine lookup_map_update _ _ racers ?_
      obtain ⟨r, hr, hrn⟩ := List.any_eq_true.mp hany
      exact ⟨r, hr, of_decide_eq_true hrn⟩
    · rw [setRacer, if_neg hany]
      refine lookup_append_new _ _ racers ?_
      intro r hr hrn
      exact hany (List.any_eq_true.mpr ⟨r, hr, decide_eq_true hrn⟩)

/-- Witness for C4 at concrete inputs: adding name `" Foo "` with addresses
`"0x1, 0x2,"` to an empty configuration maps `Foo` to the two parsed
addresses, and a whitespace-only name is rejected unchanged. -/
theorem add_entity_witness :
    List.lookup (trimJS (" Foo ".toList))
        (addEntity [] (" Foo ".toList) ("0x1, 0x2,".toList)) =
      some (parseAddresses (trimJS ("0x1, 0x2,".toList))) ∧
    addEntity [(['A'], [['B']])] ("  ".toList) ("0x1".toList) =
      [(['A'], [['B']])] :=
  ⟨(add_entity_validation [] (" Foo ".toList) ("0x1, 0x2,".toList)).2.2
      (by decide) (by decide),
    (add_entity_validation [(['A'], [['B']])] ("  ".toList) ("0x1".toList)).1
      (by decide)⟩

/-- Soundness of a Batched Publisher run from any pending batch strictly
below the size limit: every emission is non-empty, within the size limit,
and flushed no later than its first item's arrival time plus the maximum
wait. -/
theorem pubRunAux_sound (maxSize : Nat) (maxWait : Int)
    (hsz : 1 ≤ maxSize) (hw : 0 ≤ maxWait) :
    ∀ (events : List (Int × String)) (pending : List (Int × String)),
      pending.length < maxSize →
      ∀ fb ∈ pubRunAux maxSize maxWait pending events,
        fb.2 ≠ [] ∧ fb.2.length ≤ maxSize ∧ fb.1 ≤ firstArrival fb.2 + maxWait := by
  intro events
  induction events with
  | nil =>
      intro pending hp fb hfb
      rw [pubRunAux] at hfb
      by_cases hpe : pending.isEmpty
      · rw [if_pos hpe] at hfb
        exact absurd hfb (List.not_mem_nil fb)
      · rw [if_neg hpe] at hfb
        rcases List.mem_singleton.mp hfb with rfl
        exact ⟨by simpa [List.isEmpty_iff] using hpe, le_of_lt hp, le_refl _⟩
  | cons e rest ih =>
      obtain ⟨t, x⟩ := e
      intro pending hp fb hfb
      rw [pubRunAux] at hfb
      by_cases hfire : pending ≠ [] ∧ firstArrival pending + maxWait ≤ t
      · rw [if_pos hfire] at hfb
        by_cases hone : maxSize ≤ 1
        · rw [if_pos hone] at hfb
          rcases List.mem_cons.mp hfb with rfl | hfb
          · exact ⟨hfire.1, le_of_lt hp, le_refl _⟩
          rcases List.mem_cons.mp hfb with rfl | hfb
          · refine ⟨by simp, by simpa using hsz, ?_⟩
            show t ≤ t + maxWait
            omega
          · exact ih [] (by simp only [List.length_nil]; omega) fb hfb
        · rw [if_neg hone] at hfb
          rcases List.mem_cons.mp hfb with rfl | hfb
          · exact ⟨hfire.1, le_of_lt hp, le_refl _⟩
          · exact ih [(t, x)] (by simp; omega) fb hfb
      · rw [if_neg hfire] at hfb
        by_cases hsize : maxSize ≤ (pending ++ [(t, x)]).length
        · rw [if_pos hsize] at hfb
          rcases List.mem_cons.mp hfb with rfl | hfb
          · refine ⟨by simp, ?_, ?_⟩
            · show (pending ++ [(t, x)]).length ≤ maxSize
              rw [List.length_append]
              simpa using hp
            · show t ≤ firstArrival (pending ++ [(t, x)]) + maxWait
              push_neg at hfire
              cases hpd : pending with
              | nil =>
                  show t ≤ t + maxWait
                  omega
              | cons p ps =>
                  obtain ⟨t0, y⟩ := p
                  show t ≤ t0 + maxWait
                  have hlt := hfire (by rw [hpd]; simp)
                  rw [hpd] at hlt
                  have hfa : firstArrival ((t0, y) :: ps) = t0 := rfl
                  rw [hfa] at hlt
                  omega
          · exact ih [] (by simp only [List.length_nil]; omega) fb hfb
        · rw [if_neg hsize] at hfb
          refine ih (pending ++ [(t, x)]) ?_ fb hfb
          rw [List.length_append]
          rw [List.length_append] at hsize
          omega

/-- C8: for every input stream delivered to a Batched Publisher with a
positive maximum batch size and a nonnegative maximum wait, every emitted
batch is non-empty and holds at most the maximum number of items, and every
batch is flushed no later than the maximum wait after its first item
arrived — flushing on whichever of the size and wait conditions fires
first. -/
theorem batched_publisher_bounds :
    ∀ (maxSize : Nat) (maxWait : Int) (events : List (Int × String)),
      1 ≤ maxSize → 0 ≤ maxWait →
      ∀ fb ∈ pubRun maxSize maxWait events,
        fb.2 ≠ [] ∧ fb.2.length ≤ maxSize ∧ fb.1 ≤ firstArrival fb.2 + maxWait := by
  intro maxSize maxWait events hsz hw
  exact pubRunAux_sound maxSize maxWait hsz hw events []
    (by simp only [List.length_nil]; omega)

/-- Witness for C8 at a concrete run: size limit 2, wait limit 1, items at
times 0, 3 and 3; the first batch flushes on the wait timer at time 1, the
second on the size limit at time 3, and both batches meet the bounds. -/
theorem batched_publisher_witness :
    pubRun 2 1 [(0, "a"), (3, "b"), (3, "c")] =
      [(1, [(0, "a")]), (3, [(3, "b"), (3, "c")])] ∧
    ((1, [((0 : Int), "a")]).2 ≠ [] ∧
      (1, [((0 : Int), "a")]).2.length ≤ 2 ∧
      (1, [((0 : Int), "a")]).1 ≤ firstArrival (1, [((0 : Int), "a")]).2 + 1) :=
  ⟨by decide,
    batched_publisher_bounds 2 1 [(0, "a"), (3, "b"), (3, "c")]
      (by decide) (by decide) (1, [((0 : Int), "a")]) (by decide)⟩

/-- Witness for C7 at a concrete run: with `a` already in the recent-hash
set and the input `[a, b, b, c]`, the hash `b` is forwarded exactly once. -/
theorem duplicate_filter_witness :
    (dedupRun ["a"] ["a", "b", "b", "c"]).count "b" =
      if "b" ∈ (["a"] : List String) then 0
      else if "b" ∈ (["a", "b", "b", "c"] : List String) then 1 else 0 :=
  duplicate_filter_forwards_once ["a", "b", "b", "c"] ["a"] "b"

/-- Witness for C9 at a concrete transaction: criterion `from` matches a
transaction sent from a configured address. -/
theorem entity_matching_witness :
    entityMatches ["0xAAA"] .addrFrom ⟨"0xAAA", none⟩ = true :=
  ((entity_matching_rule.1 ["0xAAA"] ⟨"0xAAA", none⟩).2.1).mpr (by decide)

end SalmoDerby
